import Mathlib

/-!
Shallow embedding of the Spatic deduplication script (src/script.py).

The script loads CSV records `\x7b name, latitude, longitude \x7d`, runs an
all-pairs similarity pass (`find_similar_entries` driving `process_entries`),
and writes the records back with an `is_similar` flag.

Modelling decisions, each justified by the source:

* The external library call `geopy.distance.great_circle(...).meters` is not
  code of this repository; it is modelled as an oracle parameter
  `gc : DistOracle α` supplied to every function that (transitively) calls it.
  Its result is a Python float, modelled by `PyFloat`: either `nan` or a
  rational value.  The only operation the script performs on the result is the
  comparison `distance > MAX_DISTANCE`, modelled by `PyFloat.gtQ`, which is
  `false` whenever the left operand is `nan` (IEEE 754 comparison semantics,
  which is what Python uses).

* The external `Levenshtein.distance` library call computes the standard
  unit-cost Levenshtein edit distance; it is modelled by Mathlib's
  `levenshtein Levenshtein.defaultCost` on the lists of characters.

* `asyncio`: `process_entries` contains no true suspension point (it only
  awaits plain coroutines, never futures), so each task created by
  `asyncio.create_task` runs from start to finish, in creation order, when the
  driver first yields to the event loop — which happens exactly at the
  `await asyncio.gather(*tasks)` calls.  The scheduler is therefore modelled
  as a state machine that accumulates pending tasks and runs them, in order,
  at each chunk boundary and once more at the end.  `tqdm` is a progress bar
  and is semantically the identity on the iterated range.

* The scheduler state carries a ghost field `log` recording every pair that
  is enqueued (and hence, because every created task is awaited by one of the
  `gather` calls, every pair that is evaluated).  The `log` field is write
  only: no other component reads it, so it does not influence `entries`.
-/

/-- Constant `MAX_DISTANCE = 200` (script.py line 12), in meters. -/
def MAX_DISTANCE : ℚ := 200

/-- Constant `MAX_EDITS = 5` (script.py line 13). -/
def MAX_EDITS : ℕ := 5

/-- Constant `CHUNKS = 100000` (script.py line 14). -/
def CHUNKS : ℕ := 100000

/-- Result of the Python float computation performed by the external
`great_circle(...).meters` call: either NaN (possible for malformed
coordinates) or an exact numeric value, modelled as a rational. -/
inductive PyFloat where
  | nan : PyFloat
  | val : ℚ → PyFloat
deriving DecidableEq

/-- Python's `>` on a float result against a numeric threshold: any
comparison whose left operand is NaN evaluates to `False` (IEEE 754). -/
def PyFloat.gtQ : PyFloat → ℚ → Bool
  | PyFloat.nan, _ => false
  | PyFloat.val x, y => decide (x > y)

/-- The external geodesic library (`geopy.distance.great_circle`), abstracted
as an oracle from two coordinate pairs to a Python float. -/
def DistOracle (α : Type) : Type := (α × α) → (α × α) → PyFloat

/-- One record of the dataset: the dict
`\x7b name, latitude, longitude, is_similar \x7d` built in `main`
(script.py lines 128-133).  The coordinate type is abstract because the
distance computation on coordinates is the external oracle. -/
structure Entry (α : Type) where
  name : List Char
  latitude : α
  longitude : α
  is_similar : ℕ
deriving DecidableEq

/-- Embedding of `distance_between_coordinates` (script.py lines 17-28):
it simply returns `great_circle(coord1, coord2).meters`, i.e. the oracle's
answer. -/
def distance_between_coordinates (gc : DistOracle α) (coord1 coord2 : α × α) :
    PyFloat :=
  gc coord1 coord2

/-- The external `Levenshtein.distance` call: standard unit-cost Levenshtein
edit distance between two character sequences (Mathlib's `levenshtein` with
the default cost structure). -/
def levenshtein_distance (name1 name2 : List Char) : ℕ :=
  levenshtein Levenshtein.defaultCost name1 name2

/-- Embedding of `is_name_similar` (script.py lines 31-42):
`Levenshtein.distance(name1, name2) < MAX_EDITS`. -/
def is_name_similar (name1 name2 : List Char) : Bool :=
  decide (levenshtein_distance name1 name2 < MAX_EDITS)

/-- Helper for the mutation `entries[k]['is_similar'] = 1`: the updated
record. -/
def set_similar (e : Entry α) : Entry α := { e with is_similar := 1 }

/-- The in-place statement `entries[k]['is_similar'] = 1` as a list update.
The scheduler only produces in-range indices, so the out-of-range branch is
unreachable in every run of the script. -/
def setFlagAt (entries : List (Entry α)) (k : ℕ) : List (Entry α) :=
  match entries[k]? with
  | some e => entries.set k (set_similar e)
  | none => entries

/-- Embedding of `process_entries` (script.py lines 45-73): read the two
records, compare the great-circle distance against `MAX_DISTANCE`
(short-circuit return when `distance > MAX_DISTANCE`), then the names
(short-circuit return when not similar), and on a match set
`is_similar = 1` on both records, `i` first, then `j`. -/
def process_entries (gc : DistOracle α) (i j : ℕ) (entries : List (Entry α)) :
    List (Entry α) :=
  match entries[i]?, entries[j]? with
  | some entry1, some entry2 =>
    let coord1 := (entry1.latitude, entry1.longitude)
    let coord2 := (entry2.latitude, entry2.longitude)
    let distance := distance_between_coordinates gc coord1 coord2
    if distance.gtQ MAX_DISTANCE then entries
    else
      let name_similar := is_name_similar entry1.name entry2.name
      if name_similar = false then entries
      else setFlagAt (setFlagAt entries i) j
  | _, _ => entries

/-- State of the scheduling loop in `find_similar_entries`
(script.py lines 84-104): the shared record list, the pending task list, the
task counter, and a ghost `log` of every enqueued pair (see the header
comment). -/
structure SchedState (α : Type) where
  entries : List (Entry α)
  tasks : List (ℕ × ℕ)
  counter : ℕ
  log : List (ℕ × ℕ)

/-- `await asyncio.gather(*tasks)`: each task `process_entries(i, j, entries)`
runs to completion, in creation order (no task contains a true suspension
point). -/
def runTasks (gc : DistOracle α) (tasks : List (ℕ × ℕ))
    (entries : List (Entry α)) : List (Entry α) :=
  tasks.foldl (fun es p => process_entries gc p.1 p.2 es) entries

/-- Body of the inner loop of `find_similar_entries` (script.py lines 95-104):
create the task for `(i, j)`, count it, and when the counter reaches `CHUNKS`
gather the pending tasks and reset counter and task list. -/
def enqueue (gc : DistOracle α) (i j : ℕ) (s : SchedState α) : SchedState α :=
  let tasks := s.tasks ++ [(i, j)]
  let counter := s.counter + 1
  let log := s.log ++ [(i, j)]
  if counter = CHUNKS then
    { entries := runTasks gc tasks s.entries, tasks := [], counter := 0,
      log := log }
  else
    { entries := s.entries, tasks := tasks, counter := counter, log := log }

/-- The inner loop `for j in range(i+1, n)` of `find_similar_entries`. -/
def innerLoop (gc : DistOracle α) (n i : ℕ) (s : SchedState α) : SchedState α :=
  (List.range' (i + 1) (n - (i + 1))).foldl (fun s j => enqueue gc i j s) s

/-- One iteration of the outer loop `for i in tqdm(range(n))`
(script.py lines 91-104): skip the whole row when `entries[i]['is_similar']`
is already `1`, otherwise run the inner loop over `j`. -/
def outerStep (gc : DistOracle α) (n : ℕ) (s : SchedState α) (i : ℕ) :
    SchedState α :=
  if (s.entries[i]?).map Entry.is_similar = some 1 then s
  else innerLoop gc n i s

/-- Initial scheduler state (script.py lines 85-87): the loaded entries, no
tasks, counter zero. -/
def initState (entries : List (Entry α)) : SchedState α :=
  { entries := entries, tasks := [], counter := 0, log := [] }

/-- Scheduler state after the outer loop has processed rows
`0, 1, ..., m - 1`. -/
def stateAt (gc : DistOracle α) (entries : List (Entry α)) (m : ℕ) :
    SchedState α :=
  (List.range m).foldl (outerStep gc entries.length) (initState entries)

/-- Embedding of `find_similar_entries` (script.py lines 76-109): run the
outer loop over all rows, then gather any remaining tasks
(`if counter != 0`). -/
def find_similar_entries (gc : DistOracle α) (entries : List (Entry α)) :
    List (Entry α) :=
  let s := stateAt gc entries entries.length
  if s.counter ≠ 0 then runTasks gc s.tasks s.entries else s.entries

/-- The pairs evaluated during a full run: the ghost log of every enqueued —
and therefore, via the chunk-boundary gathers and the final gather, every
executed — `process_entries(i, j, entries)` task. -/
def evaluated_pairs (gc : DistOracle α) (entries : List (Entry α)) :
    List (ℕ × ℕ) :=
  (stateAt gc entries entries.length).log

/-- The value of `entries[i]['is_similar']` at the moment the outer loop
reaches row `i` (as an `Option`, `none` when `i` is out of range). -/
def flag_at (gc : DistOracle α) (entries : List (Entry α)) (i : ℕ) :
    Option ℕ :=
  ((stateAt gc entries i).entries[i]?).map Entry.is_similar

/-- One raw CSV row as seen by `csv.DictReader` in `main`
(script.py lines 124-133), restricted to the three columns the script reads.
The outer `Option` is `none` when the column is absent from the file (the
`row['...']` lookup raises `KeyError`); for the numeric columns the inner
`Option` is `none` when `float(...)` raises `ValueError` on the cell text.
Either exception is caught by the `except` block and aborts the load. -/
structure RawRow where
  name : Option (List Char)
  latitude : Option (Option ℚ)
  longitude : Option (Option ℚ)

/-- The body of the load loop (script.py lines 127-133): build the entry dict
with `is_similar = 0`, or fail when a column is missing or a numeric cell is
malformed. -/
def parseRow (row : RawRow) : Option (Entry ℚ) :=
  match row.name, row.latitude, row.longitude with
  | some nm, some (some la), some (some lo) =>
    some { name := nm, latitude := la, longitude := lo, is_similar := 0 }
  | _, _, _ => none

/-- Outcome of one invocation of the script on the happy confirmation path:
the file-existence check (script.py lines 183-187), the load with its
`except` block (lines 124-136), then the matching pass. -/
inductive RunOutcome where
  | file_not_found : RunOutcome
  | load_error : RunOutcome
  | completed : List (Entry ℚ) → RunOutcome
deriving DecidableEq

/-- The script's control flow around the matching pass: `sys.exit(0)` when
the input file is missing (script.py line 187), `sys.exit(0)` from the
`except` block when any row fails to load (line 136), otherwise run
`find_similar_entries` to completion. -/
def script_run (gc : DistOracle ℚ) (input_file_exists : Bool)
    (rows : List RawRow) : RunOutcome :=
  if input_file_exists = false then RunOutcome.file_not_found
  else
    match rows.mapM parseRow with
    | none => RunOutcome.load_error
    | some entries => RunOutcome.completed (find_similar_entries gc entries)

/-- The process exit status for each outcome: both early aborts call
`sys.exit(0)` and a completed run terminates normally, so every path exits
with status `0`. -/
def exit_code : RunOutcome → ℕ
  | RunOutcome.file_not_found => 0
  | RunOutcome.load_error => 0
  | RunOutcome.completed _ => 0

/-- Python's `str.lower()` on the characters we care about. -/
def pyLower (s : List Char) : List Char := s.map Char.toLower

/-- Outcome of the confirmation prompt (script.py lines 140-146). -/
inductive PromptOutcome where
  | proceed : PromptOutcome
  | exit_zero : PromptOutcome
  | out_of_input : PromptOutcome
deriving DecidableEq

/-- Embedding of the confirmation loop (script.py lines 140-146).
`proceed` is the answer just read; `rest` are the answers the user would give
to further prompts (`out_of_input` marks exhaustion, where a real run would
raise `EOFError` from `input()`).  The `while` condition
`proceed.lower() != 'y' or proceed.lower() != 'n'` and the case-sensitive
`==` tests of the body are reproduced exactly as written. -/
def prompt_loop (proceed : List Char) (rest : List (List Char)) :
    PromptOutcome :=
  if pyLower proceed ≠ ['y'] ∨ pyLower proceed ≠ ['n'] then
    if proceed = ['n'] then PromptOutcome.exit_zero
    else if proceed = ['y'] then PromptOutcome.proceed
    else
      match rest with
      | [] => PromptOutcome.out_of_input
      | next :: rest2 => prompt_loop next rest2
  else PromptOutcome.proceed

/-- Levenshtein distance from the empty name: the length of the other name. -/
theorem levenshtein_distance_nil_left (ys : List Char) :
    levenshtein_distance [] ys = ys.length := by
  induction ys with
  | nil => rfl
  | cons y ys ih =>
    rw [levenshtein_distance] at ih ⊢
    rw [levenshtein_nil_cons, ih]
    simp [Levenshtein.defaultCost]
    omega

/-- Levenshtein distance to the empty name: the length of the other name. -/
theorem levenshtein_distance_nil_right (xs : List Char) :
    levenshtein_distance xs [] = xs.length := by
  induction xs with
  | nil => rfl
  | cons x xs ih =>
    rw [levenshtein_distance] at ih ⊢
    rw [levenshtein_cons_nil, ih]
    simp [Levenshtein.defaultCost]
    omega

/-- The standard one-step recurrence of the Levenshtein distance. -/
theorem levenshtein_distance_cons_cons (x : Char) (xs : List Char) (y : Char)
    (ys : List Char) :
    levenshtein_distance (x :: xs) (y :: ys) =
      min (1 + levenshtein_distance xs (y :: ys))
        (min (1 + levenshtein_distance (x :: xs) ys)
          ((if x = y then 0 else 1) + levenshtein_distance xs ys)) := by
  rw [levenshtein_distance, levenshtein_cons_cons]
  simp only [Levenshtein.defaultCost_delete, Levenshtein.defaultCost_insert,
    Levenshtein.defaultCost_substitute, levenshtein_distance]

/-- The Levenshtein distance is symmetric. -/
theorem levenshtein_distance_symm (xs ys : List Char) :
    levenshtein_distance xs ys = levenshtein_distance ys xs := by
  have key : ∀ n (xs ys : List Char), xs.length + ys.length ≤ n →
      levenshtein_distance xs ys = levenshtein_distance ys xs := by
    intro n
    induction n with
    | zero =>
      intro xs ys h
      match xs, ys with
      | [], [] => rfl
      | x :: xs, _ => simp at h
      | [], y :: ys => simp at h
    | succ n ih =>
      intro xs ys h
      match xs, ys with
      | [], ys =>
        rw [levenshtein_distance_nil_left, levenshtein_distance_nil_right]
      | x :: xs, [] =>
        rw [levenshtein_distance_nil_left, levenshtein_distance_nil_right]
      | x :: xs, y :: ys =>
        rw [levenshtein_distance_cons_cons, levenshtein_distance_cons_cons]
        have h1 : levenshtein_distance xs ys = levenshtein_distance ys xs := by
          apply ih; simp at h ⊢; omega
        have h2 : levenshtein_distance (x :: xs) ys =
            levenshtein_distance ys (x :: xs) := by
          apply ih; simp at h ⊢; omega
        have h3 : levenshtein_distance xs (y :: ys) =
            levenshtein_distance (y :: ys) xs := by
          apply ih; simp at h ⊢; omega
        have h4 : (if x = y then 0 else 1) = (if y = x then 0 else 1) := by
          by_cases hxy : x = y
          · simp [hxy]
          · have hyx : ¬ y = x := fun hh => hxy hh.symm
            simp [hxy, hyx]
        rw [← h2, ← h3, h1, h4]
        omega
  exact key (xs.length + ys.length) xs ys le_rfl

theorem set_similar_name (e : Entry α) : (set_similar e).name = e.name := rfl

theorem set_similar_latitude (e : Entry α) :
    (set_similar e).latitude = e.latitude := rfl

theorem set_similar_longitude (e : Entry α) :
    (set_similar e).longitude = e.longitude := rfl

theorem set_similar_is_similar (e : Entry α) :
    (set_similar e).is_similar = 1 := rfl

theorem set_similar_set_similar (e : Entry α) :
    set_similar (set_similar e) = set_similar e := rfl

theorem set_similar_of_flagged (e : Entry α) (h : e.is_similar = 1) :
    set_similar e = e := by
  cases e with
  | mk n la lo s =>
    simp only [Entry.is_similar] at h
    simp [set_similar, h]

theorem setFlagAt_length (entries : List (Entry α)) (k : ℕ) :
    (setFlagAt entries k).length = entries.length := by
  unfold setFlagAt
  split <;> simp

theorem setFlagAt_getElem? (entries : List (Entry α)) (k m : ℕ) :
    (setFlagAt entries k)[m]? =
      if k = m then (entries[m]?).map set_similar else entries[m]? := by
  unfold setFlagAt
  cases hk : entries[k]? with
  | none =>
    by_cases hkm : k = m
    · subst hkm
      rw [if_pos rfl, hk]
      rfl
    · rw [if_neg hkm]
  | some e =>
    have hklen : k < entries.length := (List.getElem?_eq_some_iff.mp hk).1
    rw [List.getElem?_set]
    by_cases hkm : k = m
    · subst hkm
      rw [if_pos rfl, if_pos rfl, if_pos hklen, hk]
      rfl
    · rw [if_neg hkm, if_neg hkm]

theorem set_self_of_getElem? (l : List β) (i : ℕ) (a : β) (h : l[i]? = some a) :
    l.set i a = l := by
  apply List.ext_getElem?
  intro n
  rw [List.getElem?_set]
  by_cases hin : i = n
  · subst hin
    rw [if_pos rfl, if_pos (List.getElem?_eq_some_iff.mp h).1, h]
  · rw [if_neg hin]

theorem setFlagAt_of_flag_one (entries : List (Entry α)) (k : ℕ) (e : Entry α)
    (h : entries[k]? = some e) (hf : e.is_similar = 1) :
    setFlagAt entries k = entries := by
  unfold setFlagAt
  rw [h]
  show entries.set k (set_similar e) = entries
  rw [set_similar_of_flagged e hf]
  exact set_self_of_getElem? entries k e h

theorem process_entries_oob (gc : DistOracle α) (i j : ℕ)
    (entries : List (Entry α)) (h : entries[i]? = none ∨ entries[j]? = none) :
    process_entries gc i j entries = entries := by
  unfold process_entries
  cases hi : entries[i]? <;> cases hj : entries[j]? <;> simp_all

theorem process_entries_skip_dist (gc : DistOracle α) (i j : ℕ)
    (entries : List (Entry α)) (e1 e2 : Entry α)
    (h1 : entries[i]? = some e1) (h2 : entries[j]? = some e2)
    (hd : (distance_between_coordinates gc (e1.latitude, e1.longitude)
        (e2.latitude, e2.longitude)).gtQ MAX_DISTANCE = true) :
    process_entries gc i j entries = entries := by
  unfold process_entries
  rw [h1, h2]
  simp [hd]

theorem process_entries_skip_name (gc : DistOracle α) (i j : ℕ)
    (entries : List (Entry α)) (e1 e2 : Entry α)
    (h1 : entries[i]? = some e1) (h2 : entries[j]? = some e2)
    (hd : (distance_between_coordinates gc (e1.latitude, e1.longitude)
        (e2.latitude, e2.longitude)).gtQ MAX_DISTANCE = false)
    (hn : is_name_similar e1.name e2.name = false) :
    process_entries gc i j entries = entries := by
  unfold process_entries
  rw [h1, h2]
  simp [hd, hn]

theorem process_entries_match (gc : DistOracle α) (i j : ℕ)
    (entries : List (Entry α)) (e1 e2 : Entry α)
    (h1 : entries[i]? = some e1) (h2 : entries[j]? = some e2)
    (hd : (distance_between_coordinates gc (e1.latitude, e1.longitude)
        (e2.latitude, e2.longitude)).gtQ MAX_DISTANCE = false)
    (hn : is_name_similar e1.name e2.name = true) :
    process_entries gc i j entries = setFlagAt (setFlagAt entries i) j := by
  unfold process_entries
  rw [h1, h2]
  simp [hd, hn]

theorem process_entries_cases (gc : DistOracle α) (i j : ℕ)
    (entries : List (Entry α)) :
    process_entries gc i j entries = entries ∨
    ∃ e1 e2, entries[i]? = some e1 ∧ entries[j]? = some e2 ∧
      (distance_between_coordinates gc (e1.latitude, e1.longitude)
        (e2.latitude, e2.longitude)).gtQ MAX_DISTANCE = false ∧
      is_name_similar e1.name e2.name = true ∧
      process_entries gc i j entries = setFlagAt (setFlagAt entries i) j := by
  cases h1 : entries[i]? with
  | none => exact Or.inl (process_entries_oob gc i j entries (Or.inl h1))
  | some e1 =>
    cases h2 : entries[j]? with
    | none => exact Or.inl (process_entries_oob gc i j entries (Or.inr h2))
    | some e2 =>
      cases hd : (distance_between_coordinates gc (e1.latitude, e1.longitude)
          (e2.latitude, e2.longitude)).gtQ MAX_DISTANCE with
      | true =>
        exact Or.inl (process_entries_skip_dist gc i j entries e1 e2 h1 h2 hd)
      | false =>
        cases hn : is_name_similar e1.name e2.name with
        | false =>
          exact Or.inl
            (process_entries_skip_name gc i j entries e1 e2 h1 h2 hd hn)
        | true =>
          exact Or.inr ⟨e1, e2, rfl, rfl, hd, hn,
            process_entries_match gc i j entries e1 e2 h1 h2 hd hn⟩

theorem process_entries_length (gc : DistOracle α) (i j : ℕ)
    (entries : List (Entry α)) :
    (process_entries gc i j entries).length = entries.length := by
  rcases process_entries_cases gc i j entries with h | ⟨e1, e2, _, _, _, _, h⟩ <;>
    rw [h]
  rw [setFlagAt_length, setFlagAt_length]

theorem process_entries_getElem?_cases (gc : DistOracle α) (i j : ℕ)
    (entries : List (Entry α)) (k : ℕ) :
    (process_entries gc i j entries)[k]? = entries[k]? ∨
    (process_entries gc i j entries)[k]? = (entries[k]?).map set_similar := by
  rcases process_entries_cases gc i j entries with h | ⟨e1, e2, _, _, _, _, h⟩
  · exact Or.inl (by rw [h])
  · rw [h, setFlagAt_getElem?, setFlagAt_getElem?]
    by_cases hjk : j = k <;> by_cases hik : i = k
    · right
      rw [if_pos hjk, if_pos hik]
      cases entries[k]? <;> simp [set_similar_set_similar]
    · right
      rw [if_pos hjk, if_neg hik]
    · right
      rw [if_neg hjk, if_pos hik]
    · left
      rw [if_neg hjk, if_neg hik]

theorem process_entries_getElem?_other (gc : DistOracle α) (i j : ℕ)
    (entries : List (Entry α)) (k : ℕ) (hik : k ≠ i) (hjk : k ≠ j) :
    (process_entries gc i j entries)[k]? = entries[k]? := by
  rcases process_entries_cases gc i j entries with h | ⟨e1, e2, _, _, _, _, h⟩
  · rw [h]
  · rw [h, setFlagAt_getElem?, setFlagAt_getElem?,
      if_neg (fun hh => hjk hh.symm), if_neg (fun hh => hik hh.symm)]

theorem process_entries_fields (gc : DistOracle α) (i j : ℕ)
    (entries : List (Entry α)) (k : ℕ) :
    ((process_entries gc i j entries)[k]?).map Entry.name =
        (entries[k]?).map Entry.name ∧
      ((process_entries gc i j entries)[k]?).map Entry.latitude =
        (entries[k]?).map Entry.latitude ∧
      ((process_entries gc i j entries)[k]?).map Entry.longitude =
        (entries[k]?).map Entry.longitude := by
  rcases process_entries_getElem?_cases gc i j entries k with h | h <;> rw [h]
  · exact ⟨rfl, rfl, rfl⟩
  · cases entries[k]? <;> simp [set_similar]

theorem process_entries_match_flags (gc : DistOracle α) (i j : ℕ)
    (entries : List (Entry α)) (e1 e2 : Entry α)
    (h1 : entries[i]? = some e1) (h2 : entries[j]? = some e2)
    (hd : (distance_between_coordinates gc (e1.latitude, e1.longitude)
        (e2.latitude, e2.longitude)).gtQ MAX_DISTANCE = false)
    (hn : is_name_similar e1.name e2.name = true) :
    ((process_entries gc i j entries)[i]?).map Entry.is_similar = some 1 ∧
      ((process_entries gc i j entries)[j]?).map Entry.is_similar = some 1 := by
  rw [process_entries_match gc i j entries e1 e2 h1 h2 hd hn]
  rw [setFlagAt_getElem?, setFlagAt_getElem?, setFlagAt_getElem?,
    setFlagAt_getElem?]
  constructor
  · by_cases hji : j = i
    · rw [if_pos hji, if_pos rfl, h1]
      rfl
    · rw [if_neg hji, if_pos rfl, h1]
      rfl
  · rw [if_pos rfl]
    by_cases hij : i = j
    · subst hij
      rw [if_pos rfl, h1]
      rfl
    · rw [if_neg hij, h2]
      rfl

/-- Both stages pass with the numeric distance within the threshold: there is
a finite distance value at most `MAX_DISTANCE` between the two records'
coordinates, and their names are within the edit-distance bound. -/
def within_thresholds (gc : DistOracle α) (e1 e2 : Entry α) : Prop :=
  (∃ q, distance_between_coordinates gc (e1.latitude, e1.longitude)
      (e2.latitude, e2.longitude) = PyFloat.val q ∧ q ≤ MAX_DISTANCE) ∧
    levenshtein_distance e1.name e2.name < MAX_EDITS

/-- Record `k` of the original dataset has at least one other record within
both thresholds. -/
def has_partner (gc : DistOracle α) (orig : List (Entry α)) (k : ℕ) : Prop :=
  ∃ m ek em, m ≠ k ∧ orig[k]? = some ek ∧ orig[m]? = some em ∧
    within_thresholds gc ek em

/-- Frame relation between the loaded dataset and an intermediate state of
the record list: same length, and every record's name and coordinates are
unchanged. -/
def frame_ok (orig es : List (Entry α)) : Prop :=
  es.length = orig.length ∧
    ∀ k : ℕ, (es[k]?).map Entry.name = (orig[k]?).map Entry.name ∧
      (es[k]?).map Entry.latitude = (orig[k]?).map Entry.latitude ∧
      (es[k]?).map Entry.longitude = (orig[k]?).map Entry.longitude

/-- Every record whose flag differs from its loaded value has a matching
partner in the original dataset. -/
def flags_justified (gc : DistOracle α) (orig es : List (Entry α)) : Prop :=
  ∀ (k : ℕ) (e eo : Entry α), es[k]? = some e → orig[k]? = some eo →
    e.is_similar ≠ eo.is_similar → has_partner gc orig k

theorem frame_ok_refl (orig : List (Entry α)) : frame_ok orig orig := by
  unfold frame_ok
  exact ⟨rfl, fun _ => ⟨rfl, rfl, rfl⟩⟩

theorem frame_ok_entry (orig es : List (Entry α)) (h : frame_ok orig es)
    (k : ℕ) (e : Entry α) (hk : es[k]? = some e) :
    ∃ o, orig[k]? = some o ∧ o.name = e.name ∧ o.latitude = e.latitude ∧
      o.longitude = e.longitude := by
  unfold frame_ok at h
  obtain ⟨hn, hla, hlo⟩ := h.2 k
  rw [hk] at hn hla hlo
  cases ho : orig[k]? with
  | none => rw [ho] at hn; exact absurd hn (by simp)
  | some o =>
    rw [ho] at hn hla hlo
    simp only [Option.map_some'] at hn hla hlo
    exact ⟨o, rfl, (Option.some_inj.mp hn).symm, (Option.some_inj.mp hla).symm,
      (Option.some_inj.mp hlo).symm⟩

theorem process_entries_frame_ok (gc : DistOracle α) (i j : ℕ)
    (orig es : List (Entry α)) (h : frame_ok orig es) :
    frame_ok orig (process_entries gc i j es) := by
  unfold frame_ok at h ⊢
  constructor
  · rw [process_entries_length, h.1]
  · intro k
    obtain ⟨hn, hla, hlo⟩ := h.2 k
    obtain ⟨h1, h2, h3⟩ := process_entries_fields gc i j es k
    exact ⟨h1.trans hn, h2.trans hla, h3.trans hlo⟩

theorem gtQ_false_within (gc : DistOracle α)
    (hfin : ∀ c1 c2, gc c1 c2 ≠ PyFloat.nan) (e1 e2 : Entry α)
    (hd : (distance_between_coordinates gc (e1.latitude, e1.longitude)
        (e2.latitude, e2.longitude)).gtQ MAX_DISTANCE = false)
    (hn : is_name_similar e1.name e2.name = true) :
    within_thresholds gc e1 e2 := by
  unfold within_thresholds
  constructor
  · cases hgc : gc (e1.latitude, e1.longitude) (e2.latitude, e2.longitude) with
    | nan => exact absurd hgc (hfin _ _)
    | val q =>
      refine ⟨q, by rw [distance_between_coordinates, hgc], ?_⟩
      rw [distance_between_coordinates, hgc] at hd
      unfold PyFloat.gtQ at hd
      simp only [decide_eq_false_iff_not, not_lt] at hd
      exact hd
  · unfold is_name_similar at hn
    simp only [decide_eq_true_eq] at hn
    exact hn

theorem within_thresholds_swap (gc : DistOracle α)
    (hsymm : ∀ c1 c2, gc c1 c2 = gc c2 c1) (e1 e2 : Entry α)
    (h : within_thresholds gc e1 e2) : within_thresholds gc e2 e1 := by
  unfold within_thresholds at h ⊢
  obtain ⟨⟨q, hq, hle⟩, hlev⟩ := h
  refine ⟨⟨q, ?_, hle⟩, ?_⟩
  · rw [distance_between_coordinates] at hq ⊢
    rw [hsymm]
    exact hq
  · rw [levenshtein_distance_symm]
    exact hlev

theorem process_entries_flags_justified (gc : DistOracle α)
    (hsymm : ∀ c1 c2, gc c1 c2 = gc c2 c1)
    (hfin : ∀ c1 c2, gc c1 c2 ≠ PyFloat.nan) (i j : ℕ) (hij : i ≠ j)
    (orig es : List (Entry α)) (hf : frame_ok orig es)
    (hj : flags_justified gc orig es) :
    flags_justified gc orig (process_entries gc i j es) := by
  rcases process_entries_cases gc i j es with h | ⟨e1, e2, h1, h2, hd, hn, h⟩
  · rw [h]; exact hj
  · intro k e eo hk ho hne
    rw [h, setFlagAt_getElem?, setFlagAt_getElem?] at hk
    obtain ⟨o1, ho1, hn1, hla1, hlo1⟩ := frame_ok_entry orig es hf i e1 h1
    obtain ⟨o2, ho2, hn2, hla2, hlo2⟩ := frame_ok_entry orig es hf j e2 h2
    have hw : within_thresholds gc o1 o2 := by
      apply gtQ_false_within gc hfin
      · rw [hla1, hlo1, hla2, hlo2]
        exact hd
      · rw [hn1, hn2]
        exact hn
    by_cases hjk : j = k
    · subst hjk
      unfold has_partner
      exact ⟨i, o2, o1, hij, ho2, ho1,
        within_thresholds_swap gc hsymm o1 o2 hw⟩
    · rw [if_neg hjk] at hk
      by_cases hik : i = k
      · subst hik
        unfold has_partner
        exact ⟨j, o1, o2, fun hh => hij hh.symm, ho1, ho2, hw⟩
      · rw [if_neg hik] at hk
        exact hj k e eo hk ho hne

theorem runTasks_lift (gc : DistOracle α) (P : List (Entry α) → Prop)
    (hstep : ∀ (i j : ℕ) es, i ≠ j → P es → P (process_entries gc i j es)) :
    ∀ tasks : List (ℕ × ℕ), (∀ p ∈ tasks, p.1 ≠ p.2) →
      ∀ es, P es → P (runTasks gc tasks es) := by
  intro tasks
  induction tasks with
  | nil =>
    intro _ es h
    exact h
  | cons p ts ih =>
    intro hall es hP
    show P (runTasks gc ts (process_entries gc p.1 p.2 es))
    exact ih (fun q hq => hall q (List.mem_cons_of_mem p hq)) _
      (hstep p.1 p.2 es (hall p (List.mem_cons_self p ts)) hP)

theorem enqueue_lift (gc : DistOracle α) (P : List (Entry α) → Prop)
    (hstep : ∀ (i j : ℕ) es, i ≠ j → P es → P (process_entries gc i j es))
    (i j : ℕ) (hij : i ≠ j) (s : SchedState α)
    (h : P s.entries ∧ ∀ p ∈ s.tasks, p.1 ≠ p.2) :
    P (enqueue gc i j s).entries ∧ ∀ p ∈ (enqueue gc i j s).tasks, p.1 ≠ p.2 := by
  have htasks : ∀ p ∈ s.tasks ++ [(i, j)], p.1 ≠ p.2 := by
    intro p hp
    rcases List.mem_append.mp hp with hp | hp
    · exact h.2 p hp
    · rw [List.mem_singleton.mp hp]
      exact hij
  unfold enqueue
  by_cases hc : s.counter + 1 = CHUNKS
  · rw [if_pos hc]
    exact ⟨runTasks_lift gc P hstep _ htasks _ h.1, by intro p hp; simp at hp⟩
  · rw [if_neg hc]
    exact ⟨h.1, htasks⟩

theorem innerFold_lift (gc : DistOracle α) (P : List (Entry α) → Prop)
    (hstep : ∀ (i j : ℕ) es, i ≠ j → P es → P (process_entries gc i j es))
    (i : ℕ) :
    ∀ L : List ℕ, (∀ j ∈ L, i ≠ j) → ∀ s : SchedState α,
      (P s.entries ∧ ∀ p ∈ s.tasks, p.1 ≠ p.2) →
      P ((L.foldl (fun s j => enqueue gc i j s) s)).entries ∧
        ∀ p ∈ ((L.foldl (fun s j => enqueue gc i j s) s)).tasks, p.1 ≠ p.2 := by
  intro L
  induction L with
  | nil =>
    intro _ s h
    exact h
  | cons j L ih =>
    intro hall s h
    show P ((L.foldl (fun s j => enqueue gc i j s) (enqueue gc i j s))).entries ∧ _
    exact ih (fun q hq => hall q (List.mem_cons_of_mem j hq)) _
      (enqueue_lift gc P hstep i j (hall j (List.mem_cons_self j L)) s h)

theorem innerLoop_lift (gc : DistOracle α) (P : List (Entry α) → Prop)
    (hstep : ∀ (i j : ℕ) es, i ≠ j → P es → P (process_entries gc i j es))
    (n i : ℕ) (s : SchedState α)
    (h : P s.entries ∧ ∀ p ∈ s.tasks, p.1 ≠ p.2) :
    P (innerLoop gc n i s).entries ∧
      ∀ p ∈ (innerLoop gc n i s).tasks, p.1 ≠ p.2 := by
  apply innerFold_lift gc P hstep i _ _ s h
  intro j hj
  have := List.mem_range'_1.mp hj
  omega

theorem stateAt_succ (gc : DistOracle α) (entries : List (Entry α)) (m : ℕ) :
    stateAt gc entries (m + 1) =
      outerStep gc entries.length (stateAt gc entries m) m := by
  unfold stateAt
  rw [List.range_succ, List.foldl_append]
  rfl

theorem stateAt_lift (gc : DistOracle α) (P : List (Entry α) → Prop)
    (hstep : ∀ (i j : ℕ) es, i ≠ j → P es → P (process_entries gc i j es))
    (entries : List (Entry α)) (hP : P entries) (m : ℕ) :
    P (stateAt gc entries m).entries ∧
      ∀ p ∈ (stateAt gc entries m).tasks, p.1 ≠ p.2 := by
  induction m with
  | zero =>
    exact ⟨hP, by intro p hp; simp [stateAt, initState] at hp⟩
  | succ m ih =>
    rw [stateAt_succ]
    unfold outerStep
    by_cases hflag :
        ((stateAt gc entries m).entries[m]?).map Entry.is_similar = some 1
    · rw [if_pos hflag]
      exact ih
    · rw [if_neg hflag]
      exact innerLoop_lift gc P hstep entries.length m _ ih

theorem find_similar_entries_lift (gc : DistOracle α)
    (P : List (Entry α) → Prop)
    (hstep : ∀ (i j : ℕ) es, i ≠ j → P es → P (process_entries gc i j es))
    (entries : List (Entry α)) (hP : P entries) :
    P (find_similar_entries gc entries) := by
  unfold find_similar_entries
  have h := stateAt_lift gc P hstep entries hP entries.length
  by_cases hc : (stateAt gc entries entries.length).counter ≠ 0
  · rw [if_pos hc]
    exact runTasks_lift gc P hstep _ h.2 _ h.1
  · rw [if_neg hc]
    exact h.1

/-- The row of candidate pairs enumerated for left index `i` over a dataset
of `n` records: `(i, j)` for `j` from `i + 1` to `n - 1`. -/
def rowPairs (i n : ℕ) : List (ℕ × ℕ) :=
  (List.range' (i + 1) (n - (i + 1))).map (fun j => (i, j))

/-- The pairs the scheduler enqueues while processing row `i`: none when
record `i` is already flagged when the outer loop reaches it, otherwise the
whole row regardless of any other record's flag. -/
def row_log (gc : DistOracle α) (entries : List (Entry α)) (i : ℕ) :
    List (ℕ × ℕ) :=
  if flag_at gc entries i = some 1 then [] else rowPairs i entries.length

theorem enqueue_log (gc : DistOracle α) (i j : ℕ) (s : SchedState α) :
    (enqueue gc i j s).log = s.log ++ [(i, j)] := by
  unfold enqueue
  by_cases hc : s.counter + 1 = CHUNKS
  · rw [if_pos hc]
  · rw [if_neg hc]

theorem innerFold_log (gc : DistOracle α) (i : ℕ) :
    ∀ (L : List ℕ) (s : SchedState α),
      ((L.foldl (fun s j => enqueue gc i j s) s)).log =
        s.log ++ L.map (fun j => (i, j)) := by
  intro L
  induction L with
  | nil =>
    intro s
    simp
  | cons j L ih =>
    intro s
    show ((L.foldl (fun s j => enqueue gc i j s) (enqueue gc i j s))).log = _
    rw [ih, enqueue_log]
    simp

theorem innerLoop_log (gc : DistOracle α) (n i : ℕ) (s : SchedState α) :
    (innerLoop gc n i s).log = s.log ++ rowPairs i n := by
  unfold innerLoop rowPairs
  exact innerFold_log gc i _ s

theorem stateAt_log (gc : DistOracle α) (entries : List (Entry α)) (m : ℕ) :
    (stateAt gc entries m).log = (List.range m).flatMap (row_log gc entries) := by
  induction m with
  | zero => rfl
  | succ m ih =>
    rw [stateAt_succ, List.range_succ, List.flatMap_append]
    unfold outerStep
    by_cases hflag :
        ((stateAt gc entries m).entries[m]?).map Entry.is_similar = some 1
    · rw [if_pos hflag, ih]
      have : row_log gc entries m = [] := by
        unfold row_log flag_at
        rw [if_pos hflag]
      simp [this]
    · rw [if_neg hflag, innerLoop_log, ih]
      have : row_log gc entries m = rowPairs m entries.length := by
        unfold row_log flag_at
        rw [if_neg hflag]
      simp [this]

/-- Oracle for test datasets whose records are all at the same location. -/
def oracle_zero : DistOracle Unit := fun _ _ => PyFloat.val 0

/-- Oracle whose distance computation yields NaN (malformed coordinates). -/
def oracle_nan : DistOracle Unit := fun _ _ => PyFloat.nan

/-- Oracle whose distance is exactly the threshold `MAX_DISTANCE`. -/
def oracle_exact : DistOracle Unit := fun _ _ => PyFloat.val MAX_DISTANCE

/-- Test record with a one-letter name and unflagged state. -/
def entry_a : Entry Unit :=
  { name := ['a'], latitude := (), longitude := (), is_similar := 0 }

/-- C1: for record indices `i`, `j`, `process_entries` sets `is_similar = 1`
on both records exactly when the great-circle distance between their
coordinates is at most `MAX_DISTANCE` and the Levenshtein distance between
their names is strictly below `MAX_EDITS`; when either stage fails it
returns the record list unchanged. -/
theorem c1_pair_evaluator_iff (gc : DistOracle α) (entries : List (Entry α))
    (i j : ℕ) (e1 e2 : Entry α) (q : ℚ)
    (h1 : entries[i]? = some e1) (h2 : entries[j]? = some e2)
    (hq : distance_between_coordinates gc (e1.latitude, e1.longitude)
        (e2.latitude, e2.longitude) = PyFloat.val q) :
    (q ≤ MAX_DISTANCE ∧ levenshtein_distance e1.name e2.name < MAX_EDITS →
      ((process_entries gc i j entries)[i]?).map Entry.is_similar = some 1 ∧
        ((process_entries gc i j entries)[j]?).map Entry.is_similar = some 1) ∧
    (¬ (q ≤ MAX_DISTANCE ∧ levenshtein_distance e1.name e2.name < MAX_EDITS) →
      process_entries gc i j entries = entries) := by
  constructor
  · rintro ⟨hle, hlev⟩
    have hd : (distance_between_coordinates gc (e1.latitude, e1.longitude)
        (e2.latitude, e2.longitude)).gtQ MAX_DISTANCE = false := by
      rw [hq]
      unfold PyFloat.gtQ
      exact decide_eq_false (not_lt.mpr hle)
    have hn : is_name_similar e1.name e2.name = true := by
      unfold is_name_similar
      exact decide_eq_true hlev
    exact process_entries_match_flags gc i j entries e1 e2 h1 h2 hd hn
  · intro hnot
    by_cases hle : q ≤ MAX_DISTANCE
    · have hlev : ¬ levenshtein_distance e1.name e2.name < MAX_EDITS :=
        fun hl => hnot ⟨hle, hl⟩
      have hd : (distance_between_coordinates gc (e1.latitude, e1.longitude)
          (e2.latitude, e2.longitude)).gtQ MAX_DISTANCE = false := by
        rw [hq]
        unfold PyFloat.gtQ
        exact decide_eq_false (not_lt.mpr hle)
      have hn : is_name_similar e1.name e2.name = false := by
        unfold is_name_similar
        exact decide_eq_false hlev
      exact process_entries_skip_name gc i j entries e1 e2 h1 h2 hd hn
    · have hd : (distance_between_coordinates gc (e1.latitude, e1.longitude)
          (e2.latitude, e2.longitude)).gtQ MAX_DISTANCE = true := by
        rw [hq]
        unfold PyFloat.gtQ
        exact decide_eq_true (not_le.mp hle)
      exact process_entries_skip_dist gc i j entries e1 e2 h1 h2 hd

/-- Witness for C1: a concrete matching pair gets both flags set. -/
theorem c1_pair_evaluator_iff_witness :
    ((process_entries oracle_zero 0 1 [entry_a, entry_a])[0]?).map
        Entry.is_similar = some 1 ∧
      ((process_entries oracle_zero 0 1 [entry_a, entry_a])[1]?).map
        Entry.is_similar = some 1 :=
  (c1_pair_evaluator_iff oracle_zero [entry_a, entry_a] 0 1 entry_a entry_a 0
    rfl rfl rfl).1 ⟨by decide, by decide⟩

/-- Counterexample to C3: with a NaN distance (malformed coordinates) and
similar names, `process_entries` does not return without mutation — it sets
both flags, because `nan > MAX_DISTANCE` evaluates to `False` and so the
stage-1 skip is not taken. -/
theorem c3_counterexample :
    ((process_entries oracle_nan 0 1 [entry_a, entry_a])[0]?).map
        Entry.is_similar = some 1 ∧
      ((process_entries oracle_nan 0 1 [entry_a, entry_a])[1]?).map
        Entry.is_similar = some 1 := by
  decide

/-- C3 (amended): a NaN distance passes the distance stage, because the skip
condition `distance > MAX_DISTANCE` is `False` for NaN; the evaluator then
proceeds to the name stage and flags both records exactly when the names are
similar, returning without mutation only on a name mismatch. -/
theorem c3_amended_nan_passes_stage1 (gc : DistOracle α)
    (entries : List (Entry α)) (i j : ℕ) (e1 e2 : Entry α)
    (h1 : entries[i]? = some e1) (h2 : entries[j]? = some e2)
    (hnan : distance_between_coordinates gc (e1.latitude, e1.longitude)
        (e2.latitude, e2.longitude) = PyFloat.nan) :
    (levenshtein_distance e1.name e2.name < MAX_EDITS →
      ((process_entries gc i j entries)[i]?).map Entry.is_similar = some 1 ∧
        ((process_entries gc i j entries)[j]?).map Entry.is_similar = some 1) ∧
    (¬ levenshtein_distance e1.name e2.name < MAX_EDITS →
      process_entries gc i j entries = entries) := by
  have hd : (distance_between_coordinates gc (e1.latitude, e1.longitude)
      (e2.latitude, e2.longitude)).gtQ MAX_DISTANCE = false := by
    rw [hnan]
    rfl
  constructor
  · intro hlev
    have hn : is_name_similar e1.name e2.name = true := by
      unfold is_name_similar
      exact decide_eq_true hlev
    exact process_entries_match_flags gc i j entries e1 e2 h1 h2 hd hn
  · intro hlev
    have hn : is_name_similar e1.name e2.name = false := by
      unfold is_name_similar
      exact decide_eq_false hlev
    exact process_entries_skip_name gc i j entries e1 e2 h1 h2 hd hn

/-- Witness for the amended C3: NaN distance plus similar names flags both
records. -/
theorem c3_amended_nan_passes_stage1_witness :
    ((process_entries oracle_nan 0 1 [entry_a, entry_a])[1]?).map
        Entry.is_similar = some 1 :=
  ((c3_amended_nan_passes_stage1 oracle_nan [entry_a, entry_a] 0 1 entry_a
    entry_a rfl rfl rfl).1 (by decide)).2

/-- C4: both threshold comparisons are strict.  A name pair at Levenshtein
distance exactly `MAX_EDITS` is not similar, and a record pair at distance
exactly `MAX_DISTANCE` passes stage 1 — the skip condition is the strict
`distance > MAX_DISTANCE` — so with similar names both flags are set. -/
theorem c4_strict_thresholds :
    (∀ n1 n2 : List Char, levenshtein_distance n1 n2 = MAX_EDITS →
      is_name_similar n1 n2 = false) ∧
    (∀ (α : Type) (gc : DistOracle α) (entries : List (Entry α)) (i j : ℕ)
      (e1 e2 : Entry α), entries[i]? = some e1 → entries[j]? = some e2 →
      distance_between_coordinates gc (e1.latitude, e1.longitude)
          (e2.latitude, e2.longitude) = PyFloat.val MAX_DISTANCE →
      is_name_similar e1.name e2.name = true →
      ((process_entries gc i j entries)[i]?).map Entry.is_similar = some 1 ∧
        ((process_entries gc i j entries)[j]?).map Entry.is_similar = some 1) := by
  constructor
  · intro n1 n2 h
    unfold is_name_similar
    rw [h]
    exact decide_eq_false (lt_irrefl MAX_EDITS)
  · intro α gc entries i j e1 e2 h1 h2 hq hn
    have hd : (distance_between_coordinates gc (e1.latitude, e1.longitude)
        (e2.latitude, e2.longitude)).gtQ MAX_DISTANCE = false := by
      rw [hq]
      unfold PyFloat.gtQ
      exact decide_eq_false (lt_irrefl MAX_DISTANCE)
    exact process_entries_match_flags gc i j entries e1 e2 h1 h2 hd hn

/-- Witness for C4: names at edit distance exactly 5 are not similar, and a
concrete pair at distance exactly 200 with equal names gets both flags. -/
theorem c4_strict_thresholds_witness :
    is_name_similar ['a', 'b', 'c', 'd', 'e'] [] = false ∧
      ((process_entries oracle_exact 0 1 [entry_a, entry_a])[0]?).map
          Entry.is_similar = some 1 ∧
        ((process_entries oracle_exact 0 1 [entry_a, entry_a])[1]?).map
          Entry.is_similar = some 1 :=
  ⟨c4_strict_thresholds.1 ['a', 'b', 'c', 'd', 'e'] [] (by decide),
    c4_strict_thresholds.2 Unit oracle_exact [entry_a, entry_a] 0 1 entry_a
      entry_a rfl rfl rfl (by decide)⟩

/-- C7: evaluating the same pair twice in succession leaves the dataset in
exactly the state produced by evaluating it once — a redundant match only
rewrites an already-set flag. -/
theorem c7_pair_evaluation_idempotent (gc : DistOracle α) (i j : ℕ)
    (entries : List (Entry α)) :
    process_entries gc i j (process_entries gc i j entries) =
      process_entries gc i j entries := by
  rcases process_entries_cases gc i j entries with h | ⟨e1, e2, h1, h2, hd, hn, h⟩
  · rw [h, h]
  · have hi2 : (setFlagAt (setFlagAt entries i) j)[i]? =
        some (set_similar e1) := by
      rw [setFlagAt_getElem?, setFlagAt_getElem?]
      by_cases hji : j = i
      · rw [if_pos hji, if_pos rfl, h1]
        simp [set_similar_set_similar]
      · rw [if_neg hji, if_pos rfl, h1]
        rfl
    have hj2 : (setFlagAt (setFlagAt entries i) j)[j]? =
        some (set_similar e2) := by
      rw [setFlagAt_getElem?, if_pos rfl, setFlagAt_getElem?]
      by_cases hij : i = j
      · subst hij
        have he12 : e1 = e2 := Option.some_inj.mp (h1.symm.trans h2)
        rw [if_pos rfl, h1, he12]
        simp [set_similar_set_similar]
      · rw [if_neg hij, h2]
        rfl
    have hd2 : (distance_between_coordinates gc
        ((set_similar e1).latitude, (set_similar e1).longitude)
        ((set_similar e2).latitude, (set_similar e2).longitude)).gtQ
          MAX_DISTANCE = false := by
      rw [set_similar_latitude, set_similar_longitude, set_similar_latitude,
        set_similar_longitude]
      exact hd
    have hn2 : is_name_similar (set_similar e1).name (set_similar e2).name =
        true := by
      rw [set_similar_name, set_similar_name]
      exact hn
    rw [h]
    rw [process_entries_match gc i j _ (set_similar e1) (set_similar e2) hi2
      hj2 hd2 hn2]
    rw [setFlagAt_of_flag_one _ i (set_similar e1) hi2 rfl]
    exact setFlagAt_of_flag_one _ j (set_similar e2) hj2 rfl

/-- C8: the pair evaluator mutates at most the `is_similar` field of records
`i` and `j` — every record's name and coordinates are preserved, records
other than `i` and `j` are completely untouched, and the length (hence the
order) of the record list is unchanged; the whole matching pass likewise
preserves length and every record's name and coordinates. -/
theorem c8_frame_condition :
    (∀ (α : Type) (gc : DistOracle α) (i j : ℕ) (entries : List (Entry α)),
      (process_entries gc i j entries).length = entries.length ∧
      (∀ k : ℕ,
        ((process_entries gc i j entries)[k]?).map Entry.name =
            (entries[k]?).map Entry.name ∧
          ((process_entries gc i j entries)[k]?).map Entry.latitude =
            (entries[k]?).map Entry.latitude ∧
          ((process_entries gc i j entries)[k]?).map Entry.longitude =
            (entries[k]?).map Entry.longitude) ∧
      (∀ k : ℕ, k ≠ i → k ≠ j →
        (process_entries gc i j entries)[k]? = entries[k]?)) ∧
    (∀ (α : Type) (gc : DistOracle α) (entries : List (Entry α)),
      (find_similar_entries gc entries).length = entries.length ∧
      ∀ k : ℕ,
        ((find_similar_entries gc entries)[k]?).map Entry.name =
            (entries[k]?).map Entry.name ∧
          ((find_similar_entries gc entries)[k]?).map Entry.latitude =
            (entries[k]?).map Entry.latitude ∧
          ((find_similar_entries gc entries)[k]?).map Entry.longitude =
            (entries[k]?).map Entry.longitude) := by
  constructor
  · intro α gc i j entries
    exact ⟨process_entries_length gc i j entries,
      process_entries_fields gc i j entries,
      fun k hki hkj => process_entries_getElem?_other gc i j entries k hki hkj⟩
  · intro α gc entries
    have h : frame_ok entries (find_similar_entries gc entries) := by
      apply find_similar_entries_lift gc (frame_ok entries)
      · intro i j es _ hP
        exact process_entries_frame_ok gc i j entries es hP
      · exact frame_ok_refl entries
    unfold frame_ok at h
    exact h

/-- Test record whose name is far (edit distance ≥ 5) from `entry_a`. -/
def entry_z : Entry Unit :=
  { name := ['z', 'z', 'z', 'z', 'z', 'z'], latitude := (), longitude := (),
    is_similar := 0 }

/-- Witness for C8: in a concrete evaluated pair `(0, 1)` the third record is
untouched, and a concrete full pass preserves the dataset length. -/
theorem c8_frame_condition_witness :
    (process_entries oracle_zero 0 1 [entry_a, entry_a, entry_z])[2]? =
        [entry_a, entry_a, entry_z][2]? ∧
      (find_similar_entries oracle_zero [entry_a, entry_a]).length =
        [entry_a, entry_a].length :=
  ⟨(c8_frame_condition.1 Unit oracle_zero 0 1 [entry_a, entry_a, entry_z]).2.2
      2 (by decide) (by decide),
    (c8_frame_condition.2 Unit oracle_zero [entry_a, entry_a]).1⟩

/-- Test record that is already flagged. -/
def entry_flagged : Entry Unit :=
  { name := ['a'], latitude := (), longitude := (), is_similar := 1 }

/-- C6: the flag starts at `0` for every loaded record, and it is monotonic:
the only mutation the pair evaluator ever performs writes `1`, and a flag
that is `1` before the matching pass is still `1` after it — no operation
resets a flag to `0`. -/
theorem c6_flag_initial_zero_and_monotonic :
    (∀ (row : RawRow) (e : Entry ℚ), parseRow row = some e →
      e.is_similar = 0) ∧
    (∀ (α : Type) (gc : DistOracle α) (i j : ℕ) (es : List (Entry α))
      (k : ℕ) (e e' : Entry α), es[k]? = some e →
      (process_entries gc i j es)[k]? = some e' →
      e'.is_similar = e.is_similar ∨ e'.is_similar = 1) ∧
    (∀ (α : Type) (gc : DistOracle α) (entries : List (Entry α)) (k : ℕ),
      (entries[k]?).map Entry.is_similar = some 1 →
      ((find_similar_entries gc entries)[k]?).map Entry.is_similar =
        some 1) := by
  refine ⟨?_, ?_, ?_⟩
  · intro row e h
    unfold parseRow at h
    obtain ⟨rn, rla, rlo⟩ := row
    match rn, rla, rlo with
    | some nm, some (some la), some (some lo) =>
      obtain rfl := Option.some_inj.mp h
      rfl
    | none, _, _ => exact absurd h (by simp)
    | some _, none, _ => exact absurd h (by simp)
    | some _, some none, _ => exact absurd h (by simp)
    | some _, some (some _), none => exact absurd h (by simp)
    | some _, some (some _), some none => exact absurd h (by simp)
  · intro α gc i j es k e e' hk hk'
    rcases process_entries_getElem?_cases gc i j es k with h | h
    · rw [h, hk] at hk'
      rw [Option.some_inj.mp hk']
      exact Or.inl rfl
    · rw [h, hk] at hk'
      simp only [Option.map_some'] at hk'
      rw [← Option.some_inj.mp hk']
      exact Or.inr rfl
  · intro α gc entries k h0
    apply find_similar_entries_lift gc
      (fun es => (es[k]?).map Entry.is_similar = some 1)
    · intro i j es _ hP
      rcases process_entries_getElem?_cases gc i j es k with h | h
      · rw [h]
        exact hP
      · rw [h]
        cases hke : es[k]? with
        | none => rw [hke] at hP; exact absurd hP (by simp)
        | some e => rfl
    · exact h0

/-- Witness for C6: a concretely loaded row has flag `0`, a concrete
evaluator mutation writes `1`, and a concrete pre-flagged record stays
flagged through a full pass. -/
theorem c6_flag_initial_zero_and_monotonic_witness :
    (Entry.mk ['a'] (0 : ℚ) 0 0).is_similar = 0 ∧
      ((set_similar entry_a).is_similar = entry_a.is_similar ∨
        (set_similar entry_a).is_similar = 1) ∧
      ((find_similar_entries oracle_zero [entry_flagged])[0]?).map
        Entry.is_similar = some 1 :=
  ⟨c6_flag_initial_zero_and_monotonic.1
      { name := some ['a'], latitude := some (some 0),
        longitude := some (some 0) } (Entry.mk ['a'] 0 0 0) rfl,
    c6_flag_initial_zero_and_monotonic.2.1 Unit oracle_zero 0 1
      [entry_a, entry_a] 0 entry_a (set_similar entry_a) rfl (by decide),
    c6_flag_initial_zero_and_monotonic.2.2 Unit oracle_zero [entry_flagged] 0
      (by decide)⟩

/-- C2: the scheduler prunes only the left-hand role.  A pair `(i, j)` is
evaluated exactly when `i < j < n` and record `i` is not yet flagged at the
moment the outer loop reaches row `i`; in particular every such row is
enumerated against every `j > i` regardless of record `j`'s flag, and a row
whose left record is flagged at that moment is skipped entirely. -/
theorem c2_scheduler_prunes_left_only (gc : DistOracle α)
    (entries : List (Entry α)) (i j : ℕ) :
    (i, j) ∈ evaluated_pairs gc entries ↔
      flag_at gc entries i ≠ some 1 ∧ i < j ∧ j < entries.length := by
  unfold evaluated_pairs
  rw [stateAt_log, List.mem_flatMap]
  constructor
  · rintro ⟨a, ha, hmem⟩
    rw [List.mem_range] at ha
    unfold row_log at hmem
    by_cases hf : flag_at gc entries a = some 1
    · rw [if_pos hf] at hmem
      exact absurd hmem (by simp)
    · rw [if_neg hf] at hmem
      unfold rowPairs at hmem
      rw [List.mem_map] at hmem
      obtain ⟨j', hj', heq⟩ := hmem
      have ha1 : a = i := congrArg Prod.fst heq
      have ha2 : j' = j := congrArg Prod.snd heq
      subst ha1
      subst ha2
      rw [List.mem_range'_1] at hj'
      exact ⟨hf, by omega, by omega⟩
  · rintro ⟨hf, hij, hjn⟩
    refine ⟨i, List.mem_range.mpr (by omega), ?_⟩
    unfold row_log
    rw [if_neg hf]
    unfold rowPairs
    rw [List.mem_map]
    refine ⟨j, List.mem_range'_1.mpr ⟨by omega, by omega⟩, rfl⟩

/-- Oracle over rational coordinates for the load-path tests. -/
def oracle_rat : DistOracle ℚ := fun _ _ => PyFloat.val 0

/-- C5: flag soundness.  For a dataset whose distance computations are
well defined (the oracle is symmetric and never NaN, as for in-range
coordinates) and whose records all load with flag `0`, every record that
ends the matching pass with `is_similar = 1` has at least one other record
within both thresholds, and a record with no such partner ends with flag
`0`. -/
theorem c5_flag_soundness (gc : DistOracle α)
    (hsymm : ∀ c1 c2, gc c1 c2 = gc c2 c1)
    (hfin : ∀ c1 c2, gc c1 c2 ≠ PyFloat.nan) (entries : List (Entry α))
    (h0 : ∀ (k : ℕ) (e : Entry α), entries[k]? = some e → e.is_similar = 0)
    (k : ℕ) (e : Entry α)
    (he : (find_similar_entries gc entries)[k]? = some e) :
    (e.is_similar = 1 → has_partner gc entries k) ∧
    (¬ has_partner gc entries k → e.is_similar = 0) := by
  have hinv : frame_ok entries (find_similar_entries gc entries) ∧
      flags_justified gc entries (find_similar_entries gc entries) := by
    apply find_similar_entries_lift gc
      (fun es => frame_ok entries es ∧ flags_justified gc entries es)
    · intro i j es hij hP
      exact ⟨process_entries_frame_ok gc i j entries es hP.1,
        process_entries_flags_justified gc hsymm hfin i j hij entries es hP.1
          hP.2⟩
    · refine ⟨frame_ok_refl entries, ?_⟩
      intro k' e' eo hk ho hne
      rw [hk] at ho
      exact absurd (by rw [Option.some_inj.mp ho]) hne
  obtain ⟨o, ho, _, _, _⟩ := frame_ok_entry entries _ hinv.1 k e he
  have ho0 : o.is_similar = 0 := h0 k o ho
  constructor
  · intro h1
    apply hinv.2 k e o he ho
    rw [h1, ho0]
    exact one_ne_zero
  · intro hnp
    by_cases hne : e.is_similar = o.is_similar
    · rw [hne, ho0]
    · exact absurd (hinv.2 k e o he ho hne) hnp

/-- Witness for C5: in a concrete two-record dataset that matches, the
record that ends flagged indeed has a partner. -/
theorem c5_flag_soundness_witness :
    has_partner oracle_zero [entry_a, entry_a] 0 :=
  (c5_flag_soundness oracle_zero (fun _ _ => rfl)
    (fun _ _ h => PyFloat.noConfusion h) [entry_a, entry_a]
    (by
      intro k e hk
      rcases k with _ | _ | k
      · simp only [List.getElem?_cons_zero, Option.some_inj] at hk
        rw [← hk]
        rfl
      · simp only [List.getElem?_cons_succ, List.getElem?_cons_zero,
          Option.some_inj] at hk
        rw [← hk]
        rfl
      · simp at hk)
    0 (set_similar entry_a) (by decide)).1 rfl

/-- C9 is a code bug: the prompt's `while` condition lowercases the input
but the accept/exit tests inside the loop compare case-sensitively, so only
the exact lowercase answers work: `y` proceeds and `n` exits, while `Y` and
`N` — advertised by the `[Y/N]` prompt text — fall through to the
re-prompt (and hit end of input here), exactly like any other string. -/
theorem c9_prompt_is_case_sensitive :
    prompt_loop ['y'] [] = PromptOutcome.proceed ∧
      prompt_loop ['n'] [] = PromptOutcome.exit_zero ∧
      prompt_loop ['Y'] [] = PromptOutcome.out_of_input ∧
      prompt_loop ['N'] [] = PromptOutcome.out_of_input ∧
      prompt_loop ['x'] [['y']] = PromptOutcome.proceed := by
  decide

/-- C10: every load failure (missing file, missing column, malformed
numeric field) aborts before any matching occurs, yet the process exit
status is `0` on every path — the same status as a successful run. -/
theorem c10_load_error_exits_zero :
    (∀ (gc : DistOracle ℚ) (fe : Bool) (rows : List RawRow),
      exit_code (script_run gc fe rows) = 0) ∧
    (∀ (gc : DistOracle ℚ) (rows : List RawRow),
      rows.mapM parseRow = none →
      script_run gc true rows = RunOutcome.load_error) := by
  constructor
  · intro gc fe rows
    cases script_run gc fe rows <;> rfl
  · intro gc rows h
    unfold script_run
    rw [if_neg (by simp), h]

/-- Witness for C10: a concrete row with a missing `name` column aborts the
run as a load error with exit status `0`. -/
theorem c10_load_error_exits_zero_witness :
    exit_code (script_run oracle_rat true
        [{ name := none, latitude := some (some 0),
           longitude := some (some 0) }]) = 0 ∧
      script_run oracle_rat true
        [{ name := none, latitude := some (some 0),
           longitude := some (some 0) }] = RunOutcome.load_error :=
  ⟨c10_load_error_exits_zero.1 oracle_rat true _,
    c10_load_error_exits_zero.2 oracle_rat _ rfl⟩
